import Mathlib

/-!
Shallow embedding of the whiteboard core
(src/whiteboardapp/src/wasm/whiteboard.cpp and
src/whiteboardapp/include/wasm/whiteboard.hpp).

Modelling conventions:
* C++ `float` values are modelled as exact rationals (ℚ).  Every float a
  program run can hold is a rational number, and all comparisons in the
  source are order comparisons, which the rational model captures exactly.
* `std::shared_ptr<DrawableElement>` is modelled as an index into a heap
  (`Whiteboard.heap : List Shape`).  `elements`, `selectedElements` and
  `currentElement` hold indices, so the pointer aliasing of the C++ code
  (the same object reachable from several containers) is preserved: writing
  through one alias is visible through all of them.
* The dynamic type of a `DrawableElement` is the tag of `ShapeData`.
* `Line::containsPoint` divides by `sqrt((y2-y1)^2+(x2-x1)^2)`.  Over IEEE
  floats, when the divisor is zero the numerator is also zero (see
  `Line.segNumer`), so the quotient is NaN and `NaN < 5.0f` is false; when
  the divisor is positive, `|num|/sqrt(den) < 5` holds exactly when
  `num^2 < 25*den`.  The embedding uses that exact characterisation, which
  keeps the hit test computable over ℚ.
-/

/-- std::min on floats: `b < a ? b : a`.  Defined explicitly (rather than
through the ℚ lattice) so that concrete states reduce inside the kernel. -/
def stdMin (a b : ℚ) : ℚ :=
  if b < a then b else a

/-- std::max on floats: `a < b ? b : a`. -/
def stdMax (a b : ℚ) : ℚ :=
  if a < b then b else a

/-- 2D point (whiteboard.hpp, struct Point). -/
structure Point where
  x : ℚ
  y : ℚ
deriving DecidableEq, Repr

/-- Axis-aligned box (whiteboard.hpp, struct Rect). -/
structure Rect where
  x : ℚ
  y : ℚ
  width : ℚ
  height : ℚ
deriving DecidableEq, Repr

/-- Drawing tools (whiteboard.hpp, enum class ShapeType). -/
inductive ShapeType where
  | FREEHAND
  | RECTANGLE
  | CIRCLE
  | LINE
  | TRIANGLE
deriving DecidableEq, Repr

/-- Variant part of a drawable element: the data owned by the dynamic type
(Line / Rectangle / Circle in whiteboard.hpp). -/
inductive ShapeData where
  | line (points : List Point)
  | rectangle (bounds : Rect)
  | circle (center : Point) (radius : ℚ)
deriving DecidableEq, Repr

/-- A drawable element: variant data plus the DrawableElement base fields. -/
structure Shape where
  kind : ShapeData
  color : String
  thickness : ℚ
  selected : Bool
deriving DecidableEq, Repr

instance : Inhabited Shape := ⟨⟨.line [], "", 0, false⟩⟩

/-- The argument of the square root in Line::containsPoint:
`(y2-y1)*(y2-y1) + (x2-x1)*(x2-x1)` for the segment from `p` to `q`.
The divisor of the distance formula is the square root of this value. -/
def Line.segDenom (p q : Point) : ℚ :=
  (q.y - p.y) * (q.y - p.y) + (q.x - p.x) * (q.x - p.x)

/-- The numerator of the distance formula in Line::containsPoint:
`abs((y2-y1)*x - (x2-x1)*y + x2*y1 - y2*x1)`. -/
def Line.segNumer (p q : Point) (x y : ℚ) : ℚ :=
  |(q.y - p.y) * x - (q.x - p.x) * y + q.x * p.y - q.y * p.x|

/-- One iteration of the loop in Line::containsPoint: the test
`distance < 5.0f` with `distance = segNumer / sqrt(segDenom)`.
When `segDenom = 0` the numerator is 0 as well, the float quotient is NaN
and the comparison is false; when `segDenom > 0` the comparison is
equivalent to `segNumer^2 < 25 * segDenom`. -/
def Line.segmentHit (p q : Point) (x y : ℚ) : Bool :=
  decide (Line.segDenom p q ≠ 0) &&
    decide ((Line.segNumer p q x y) ^ 2 < 25 * Line.segDenom p q)

/-- Line::containsPoint (whiteboard.cpp:29-40): the loop runs over the
index range `1 ≤ i < points.size()`, i.e. over consecutive point pairs. -/
def Line.containsPoint (points : List Point) (x y : ℚ) : Bool :=
  (points.zip points.tail).any fun pq => Line.segmentHit pq.1 pq.2 x y

/-- Line::getBounds (whiteboard.cpp:49-63): the min/max envelope of the
point list, `{0,0,0,0}` when the list is empty. -/
def Line.getBounds : List Point → Rect
  | [] => ⟨0, 0, 0, 0⟩
  | p :: rest =>
    let pts := p :: rest
    let minX := pts.foldl (fun m q => stdMin m q.x) p.x
    let maxX := pts.foldl (fun m q => stdMax m q.x) p.x
    let minY := pts.foldl (fun m q => stdMin m q.y) p.y
    let maxY := pts.foldl (fun m q => stdMax m q.y) p.y
    ⟨minX, minY, maxX - minX, maxY - minY⟩

/-- Rectangle::containsPoint (whiteboard.cpp:79-82): the raw stored box is
tested, with no normalization of signed width/height. -/
def Rectangle.containsPoint (b : Rect) (x y : ℚ) : Bool :=
  decide (x ≥ b.x) && decide (x ≤ b.x + b.width) &&
    decide (y ≥ b.y) && decide (y ≤ b.y + b.height)

/-- Circle::containsPoint (whiteboard.cpp:106-110). -/
def Circle.containsPoint (c : Point) (r : ℚ) (x y : ℚ) : Bool :=
  decide ((x - c.x) * (x - c.x) + (y - c.y) * (y - c.y) ≤ r * r)

/-- Virtual dispatch of containsPoint over the dynamic type. -/
def Shape.containsPoint (s : Shape) (x y : ℚ) : Bool :=
  match s.kind with
  | .line pts => Line.containsPoint pts x y
  | .rectangle b => Rectangle.containsPoint b x y
  | .circle c r => Circle.containsPoint c r x y

/-- Virtual dispatch of getBounds.  Rectangle::getBounds returns the raw
box; Circle::getBounds (whiteboard.cpp:117-119) is the enclosing square. -/
def Shape.getBounds (s : Shape) : Rect :=
  match s.kind with
  | .line pts => Line.getBounds pts
  | .rectangle b => b
  | .circle c r => ⟨c.x - r, c.y - r, r * 2, r * 2⟩

/-- Virtual dispatch of move (whiteboard.cpp:42-47, 84-87, 112-115). -/
def Shape.move (s : Shape) (dx dy : ℚ) : Shape :=
  { s with kind :=
      match s.kind with
      | .line pts => .line (pts.map fun p => ⟨p.x + dx, p.y + dy⟩)
      | .rectangle b => .rectangle { b with x := b.x + dx, y := b.y + dy }
      | .circle c r => .circle ⟨c.x + dx, c.y + dy⟩ r }

/-- The whiteboard state (whiteboard.hpp, class Whiteboard).  `heap` is the
object store; the three container fields hold heap indices standing for the
C++ shared pointers. -/
structure Whiteboard where
  heap : List Shape
  elements : List Nat
  currentColor : String
  currentThickness : ℚ
  currentShape : ShapeType
  currentElement : Option Nat
  selectedElements : List Nat
  isSelecting : Bool
  selectionStart : Point
deriving DecidableEq, Repr

/-- Dereference a heap index (a shared pointer).  Reachable states only
hold indices below `heap.length`. -/
def Whiteboard.shapeAt (wb : Whiteboard) (id : Nat) : Shape :=
  wb.heap.getD id default

/-- Overwrite the object a heap index points to (a write through a
shared pointer). -/
def Whiteboard.setShape (wb : Whiteboard) (id : Nat) (s : Shape) : Whiteboard :=
  { wb with heap := wb.heap.set id s }

/-- Allocate a fresh object and make `currentElement` point at it
(the `std::make_shared` + assignment in startDrawing). -/
def Whiteboard.alloc (wb : Whiteboard) (s : Shape) : Whiteboard :=
  { wb with heap := wb.heap ++ [s], currentElement := some wb.heap.length }

/-- Whiteboard::init (whiteboard.cpp:128-133). -/
def Whiteboard.init (wb : Whiteboard) : Whiteboard :=
  { wb with elements := [], selectedElements := [],
            currentElement := none, isSelecting := false }

/-- The constructor Whiteboard::Whiteboard (whiteboard.cpp:122-126).  The
C++ constructor leaves `selectionStart` uninitialized, so the model takes
its initial value as a parameter. -/
def Whiteboard.new (selectionStart : Point) : Whiteboard :=
  Whiteboard.init ⟨[], [], "#000000", 2, .FREEHAND, none, [], false, selectionStart⟩

/-- Whiteboard::clearSelection (whiteboard.cpp:281-286). -/
def Whiteboard.clearSelection (wb : Whiteboard) : Whiteboard :=
  { wb with
    heap := wb.elements.foldl
      (fun h id => h.set id { h.getD id default with selected := false }) wb.heap,
    selectedElements := [] }

/-- Whiteboard::startSelection (whiteboard.cpp:238-241). -/
def Whiteboard.startSelection (wb : Whiteboard) (x y : ℚ) : Whiteboard :=
  Whiteboard.clearSelection { wb with selectionStart := ⟨x, y⟩ }

/-- Whiteboard::updateSelection (whiteboard.cpp:243-260).  Note that the
loop pushes every intersecting element onto `selectedElements` without
clearing the vector first. -/
def Whiteboard.updateSelection (wb : Whiteboard) (x y : ℚ) : Whiteboard :=
  let left := stdMin x wb.selectionStart.x
  let top := stdMin y wb.selectionStart.y
  let right := stdMax x wb.selectionStart.x
  let bottom := stdMax y wb.selectionStart.y
  let r := wb.elements.foldl
    (fun (acc : List Shape × List Nat) id =>
      let s := acc.1.getD id default
      let b := Shape.getBounds s
      let intersects := !(decide (b.x > right) || decide (b.x + b.width < left) ||
                          decide (b.y > bottom) || decide (b.y + b.height < top))
      (acc.1.set id { s with selected := intersects },
       if intersects then acc.2 ++ [id] else acc.2))
    (wb.heap, wb.selectedElements)
  { wb with heap := r.1, selectedElements := r.2 }

/-- Whiteboard::endSelection (whiteboard.cpp:262-264). -/
def Whiteboard.endSelection (wb : Whiteboard) : Whiteboard :=
  { wb with isSelecting := false }

/-- Whiteboard::startDrawing (whiteboard.cpp:135-174).  The LINE and
TRIANGLE tools hit the `default:` branch of the switch, which creates
nothing; the trailing `if (currentElement) elements.push_back(...)` then
pushes whatever `currentElement` already held. -/
def Whiteboard.startDrawing (wb : Whiteboard) (x y : ℚ) : Whiteboard :=
  if wb.isSelecting then
    wb.startSelection x y
  else
    let wb1 :=
      match wb.currentShape with
      | .FREEHAND =>
          wb.alloc ⟨.line [⟨x, y⟩], wb.currentColor, wb.currentThickness, false⟩
      | .RECTANGLE =>
          wb.alloc ⟨.rectangle ⟨x, y, 0, 0⟩, wb.currentColor, wb.currentThickness, false⟩
      | .CIRCLE =>
          wb.alloc ⟨.circle ⟨x, y⟩ 0, wb.currentColor, wb.currentThickness, false⟩
      | _ => wb
    match wb1.currentElement with
    | some id => { wb1 with elements := wb1.elements ++ [id] }
    | none => wb1

/-- Whiteboard::continueDrawing (whiteboard.cpp:176-208).  The switch
dispatches on the current tool and casts `currentElement` to the matching
dynamic type; a tool/type mismatch is undefined behaviour in the C++
(never reached in the runs considered here) and is modelled as a no-op. -/
def Whiteboard.continueDrawing (wb : Whiteboard) (x y : ℚ) : Whiteboard :=
  if wb.isSelecting then
    wb.updateSelection x y
  else
    match wb.currentElement with
    | none => wb
    | some id =>
      let s := wb.shapeAt id
      match wb.currentShape, s.kind with
      | .FREEHAND, .line pts =>
          wb.setShape id { s with kind := .line (pts ++ [⟨x, y⟩]) }
      | .RECTANGLE, .rectangle b =>
          wb.setShape id
            { s with kind := .rectangle { b with width := x - b.x, height := y - b.y } }
      | .CIRCLE, .circle c _ =>
          wb.setShape id
            { s with kind :=
                .circle c (Rat.sqrt ((x - c.x) * (x - c.x) + (y - c.y) * (y - c.y))) }
      | _, _ => wb

/-- Whiteboard::endDrawing (whiteboard.cpp:210-217). -/
def Whiteboard.endDrawing (wb : Whiteboard) : Whiteboard :=
  if wb.isSelecting then wb.endSelection
  else { wb with currentElement := none }

/-- Whiteboard::setShapeType (whiteboard.cpp:225-228). -/
def Whiteboard.setShapeType (wb : Whiteboard) (t : ShapeType) : Whiteboard :=
  Whiteboard.clearSelection { wb with currentShape := t }

/-- Whiteboard::setColor (whiteboard.cpp:230-232). -/
def Whiteboard.setColor (wb : Whiteboard) (c : String) : Whiteboard :=
  { wb with currentColor := c }

/-- Whiteboard::setThickness (whiteboard.cpp:234-236). -/
def Whiteboard.setThickness (wb : Whiteboard) (t : ℚ) : Whiteboard :=
  { wb with currentThickness := t }

/-- Whiteboard::moveSelected (whiteboard.cpp:266-270): moves the object
behind every entry of `selectedElements`, once per occurrence. -/
def Whiteboard.moveSelected (wb : Whiteboard) (dx dy : ℚ) : Whiteboard :=
  { wb with
    heap := wb.selectedElements.foldl
      (fun h id => h.set id ((h.getD id default).move dx dy)) wb.heap }

/-- Whiteboard::deleteSelected (whiteboard.cpp:272-279): erase/remove_if
over the selected flag, then clear the selection view. -/
def Whiteboard.deleteSelected (wb : Whiteboard) : Whiteboard :=
  { wb with
    elements := wb.elements.filter fun id => !(wb.shapeAt id).selected,
    selectedElements := [] }

/-- Whiteboard::clear (whiteboard.cpp:288-290). -/
def Whiteboard.clear (wb : Whiteboard) : Whiteboard :=
  wb.init

/-- Whiteboard::erase (whiteboard.cpp:292-300): erase/remove_if over
`containsPoint(x, y)`.  The `radius` argument is never read. -/
def Whiteboard.erase (wb : Whiteboard) (x y radius : ℚ) : Whiteboard :=
  { wb with elements := wb.elements.filter fun id => !(wb.shapeAt id).containsPoint x y }

/-- Modelled from the spec (section 4.1 normalizedBounds and the section
4.2 Rectangle clause): the normalization of a possibly signed box to one
with non-negative width/height enclosing the same area. -/
def Rect.normalized (b : Rect) : Rect :=
  ⟨min b.x (b.x + b.width), min b.y (b.y + b.height), |b.width|, |b.height|⟩

/-- Modelled from the spec: membership of a point in the normalized bounds
of a rectangle, inclusive of the edges. -/
def pointInNormalizedBounds (b : Rect) (x y : ℚ) : Prop :=
  (b.normalized).x ≤ x ∧ x ≤ (b.normalized).x + (b.normalized).width ∧
    (b.normalized).y ≤ y ∧ y ≤ (b.normalized).y + (b.normalized).height

instance (b : Rect) (x y : ℚ) : Decidable (pointInNormalizedBounds b x y) := by
  unfold pointInNormalizedBounds
  infer_instance

/-! ### Helper lemmas -/

/-- Filtering twice with the same predicate equals filtering once. -/
theorem filter_self_idem {α : Type} (p : α → Bool) (l : List α) :
    (l.filter p).filter p = l.filter p := by
  induction l with
  | nil => rfl
  | cons a t ih =>
    by_cases h : p a <;> simp [List.filter_cons, h, ih]

/-- The elements kept by `remove_if` plus the removed ones account for the
whole list. -/
theorem length_filter_not_add_countP {α : Type} (p : α → Bool) (l : List α) :
    (l.filter fun a => !p a).length + l.countP p = l.length := by
  induction l with
  | nil => rfl
  | cons a t ih =>
    by_cases h : p a <;> simp [List.filter_cons, List.countP_cons, h] <;> omega

/-- `List.any` only depends on the predicate values on the list members. -/
theorem any_congr_mem {α : Type} {p q : α → Bool} :
    ∀ l : List α, (∀ a ∈ l, p a = q a) → l.any p = l.any q := by
  intro l
  induction l with
  | nil => intro _; rfl
  | cons a t ih =>
    intro h
    simp only [List.any_cons, h a (by simp), ih fun b hb => h b (by simp [hb])]

/-- Distinct segment endpoints make the square under the root positive. -/
theorem segDenom_ne_zero {p q : Point} (h : p ≠ q) : Line.segDenom p q ≠ 0 := by
  intro h0
  apply h
  have hy : (q.y - p.y) * (q.y - p.y) = 0 ∧ (q.x - p.x) * (q.x - p.x) = 0 := by
    unfold Line.segDenom at h0
    constructor <;> nlinarith [mul_self_nonneg (q.y - p.y), mul_self_nonneg (q.x - p.x)]
  have hx : q.x = p.x := by
    have := mul_self_eq_zero.mp hy.2
    linarith
  have hy2 : q.y = p.y := by
    have := mul_self_eq_zero.mp hy.1
    linarith
  cases p
  cases q
  simp_all

/-! ### Claim theorems -/

/-- C1 (code bug): within one selection gesture, a second `updateSelection`
call appends the already selected shape to `selectedElements` again, so the
view holds the shape twice even though its `selected` flag is a single
`true`; a following `moveSelected(1, 0)` therefore translates the shape
twice, moving its point from (1,1) to (3,1). -/
theorem updateSelection_duplicates_selected_view :
    (((((((Whiteboard.new ⟨0, 0⟩).startDrawing 1 1).endDrawing).startSelection 0 0).updateSelection 5 5).updateSelection 5 5).selectedElements = [0, 0]) ∧
    (((((((Whiteboard.new ⟨0, 0⟩).startDrawing 1 1).endDrawing).startSelection 0 0).updateSelection 5 5).updateSelection 5 5).heap
      = [⟨.line [⟨1, 1⟩], "#000000", 2, true⟩]) ∧
    (((((((((Whiteboard.new ⟨0, 0⟩).startDrawing 1 1).endDrawing).startSelection 0 0).updateSelection 5 5).updateSelection 5 5).moveSelected 1 0).shapeAt 0).kind
      = .line [⟨3, 1⟩]) := by
  refine ⟨?_, ?_, ?_⟩ <;>
    norm_num [Whiteboard.new, Whiteboard.init, Whiteboard.startDrawing,
      Whiteboard.endDrawing, Whiteboard.startSelection, Whiteboard.clearSelection,
      Whiteboard.updateSelection, Whiteboard.alloc, Whiteboard.endSelection,
      Whiteboard.shapeAt, Whiteboard.setShape, Whiteboard.moveSelected, Shape.move,
      Shape.getBounds, Line.getBounds, stdMin, stdMax]

/-- C2 (counterexample): for the rectangle with bounds {x:10, y:0,
width:-5, height:5} the point (7,2) lies inside the normalized bounds
[5,10] x [0,5], yet containsPoint returns false because the code never
normalizes the signed box. -/
theorem rectangle_containsPoint_negative_width_cex :
    Rectangle.containsPoint ⟨10, 0, -5, 5⟩ 7 2 = false ∧
    pointInNormalizedBounds ⟨10, 0, -5, 5⟩ 7 2 := by
  constructor
  · norm_num [Rectangle.containsPoint]
  · norm_num [pointInNormalizedBounds, Rect.normalized]

/-- C2 (amended): for a Rectangle whose stored width and height are
nonnegative, containsPoint(x, y) is true exactly when (x, y) lies within
[x, x+width] x [y, y+height] of the normalized bounds, inclusive; with a
negative width or height the raw test is used and normalization fails. -/
theorem rectangle_containsPoint_normalized_of_nonneg (b : Rect) (x y : ℚ)
    (hw : 0 ≤ b.width) (hh : 0 ≤ b.height) :
    Rectangle.containsPoint b x y = true ↔ pointInNormalizedBounds b x y := by
  have h1 : min b.x (b.x + b.width) = b.x := min_eq_left (by linarith)
  have h2 : min b.y (b.y + b.height) = b.y := min_eq_left (by linarith)
  simp only [Rectangle.containsPoint, pointInNormalizedBounds, Rect.normalized, h1, h2,
    abs_of_nonneg hw, abs_of_nonneg hh, Bool.and_eq_true, decide_eq_true_eq, ge_iff_le]
  tauto

/-- C2 (witness): a rectangle with nonnegative width and height on which
the amended equivalence is instantiated. -/
theorem rectangle_containsPoint_normalized_of_nonneg_witness :
    ((0 : ℚ) ≤ (⟨1, 2, 3, 4⟩ : Rect).width ∧ (0 : ℚ) ≤ (⟨1, 2, 3, 4⟩ : Rect).height) ∧
    (Rectangle.containsPoint ⟨1, 2, 3, 4⟩ 2 3 = true ↔ pointInNormalizedBounds ⟨1, 2, 3, 4⟩ 2 3) :=
  ⟨⟨by norm_num, by norm_num⟩,
   rectangle_containsPoint_normalized_of_nonneg ⟨1, 2, 3, 4⟩ 2 3 (by norm_num) (by norm_num)⟩

/-- C3 (counterexample): clear() does not reset the current color: after
setColor("#ff0000"), clear() leaves the color "#ff0000", while a freshly
constructed whiteboard has color "#000000". -/
theorem clear_keeps_color_cex :
    (Whiteboard.new ⟨0, 0⟩).currentColor = "#000000" ∧
    (((Whiteboard.new ⟨0, 0⟩).setColor "#ff0000").clear).currentColor = "#ff0000" :=
  ⟨rfl, rfl⟩

/-- C3 (amended): clear() empties the collection and the selected view,
discards the in-progress shape and turns selection mode off, but keeps the
current color, thickness and tool unchanged (it is equivalent to re-init,
not to a fresh instance). -/
theorem clear_resets_session_only (wb : Whiteboard) :
    wb.clear.elements = [] ∧ wb.clear.selectedElements = [] ∧
    wb.clear.currentElement = none ∧ wb.clear.isSelecting = false ∧
    wb.clear.currentColor = wb.currentColor ∧
    wb.clear.currentThickness = wb.currentThickness ∧
    wb.clear.currentShape = wb.currentShape :=
  ⟨rfl, rfl, rfl, rfl, rfl, rfl, rfl⟩

/-- C4: deleteSelected removes exactly the shapes whose selected flag is
true: no selected shape survives, the length drops by the prior selected
count, and the survivors keep their relative order (the new element list is
a sublist of the old one). -/
theorem deleteSelected_removes_selected (wb : Whiteboard) :
    (∀ id ∈ wb.deleteSelected.elements, (wb.deleteSelected.shapeAt id).selected = false) ∧
    wb.deleteSelected.elements.length
      = wb.elements.length - wb.elements.countP (fun id => (wb.shapeAt id).selected) ∧
    wb.deleteSelected.elements.Sublist wb.elements := by
  refine ⟨?_, ?_, ?_⟩
  · intro id hid
    have heq : wb.deleteSelected.shapeAt id = wb.shapeAt id := rfl
    rw [heq]
    simp only [Whiteboard.deleteSelected] at hid
    have := List.of_mem_filter hid
    simpa using this
  · have h := length_filter_not_add_countP (fun id => (wb.shapeAt id).selected) wb.elements
    simp only [Whiteboard.deleteSelected]
    omega
  · exact List.filter_sublist _

/-- C4 (witness): a board holding one selected shape, on which the
deleteSelected description is instantiated. -/
theorem deleteSelected_removes_selected_witness :
    (∀ id ∈ (Whiteboard.deleteSelected ⟨[⟨.line [⟨0, 0⟩], "#000000", 2, true⟩], [0], "#000000", 2, .FREEHAND, none, [0], false, ⟨0, 0⟩⟩).elements,
        ((Whiteboard.deleteSelected ⟨[⟨.line [⟨0, 0⟩], "#000000", 2, true⟩], [0], "#000000", 2, .FREEHAND, none, [0], false, ⟨0, 0⟩⟩).shapeAt id).selected = false) ∧
    (Whiteboard.deleteSelected ⟨[⟨.line [⟨0, 0⟩], "#000000", 2, true⟩], [0], "#000000", 2, .FREEHAND, none, [0], false, ⟨0, 0⟩⟩).elements.length
      = ([0] : List Nat).length
        - ([0] : List Nat).countP (fun id => ((⟨[⟨.line [⟨0, 0⟩], "#000000", 2, true⟩], [0], "#000000", 2, .FREEHAND, none, [0], false, ⟨0, 0⟩⟩ : Whiteboard).shapeAt id).selected) ∧
    (Whiteboard.deleteSelected ⟨[⟨.line [⟨0, 0⟩], "#000000", 2, true⟩], [0], "#000000", 2, .FREEHAND, none, [0], false, ⟨0, 0⟩⟩).elements.Sublist [0] :=
  deleteSelected_removes_selected _

/-- C5: erase is idempotent: a second erase with the same arguments finds
no shape left whose containsPoint test holds, so the state (in particular
the element collection) is unchanged. -/
theorem erase_idempotent (wb : Whiteboard) (x y radius : ℚ) :
    (wb.erase x y radius).erase x y radius = wb.erase x y radius := by
  simp only [Whiteboard.erase, Whiteboard.shapeAt]
  rw [filter_self_idem]

/-- C6: with no in-progress shape and selection mode off, continueDrawing
and endDrawing leave the whole state unchanged (both are total functions,
so no error is signalled). -/
theorem continue_end_drawing_noop (wb : Whiteboard) (x y : ℚ)
    (h1 : wb.currentElement = none) (h2 : wb.isSelecting = false) :
    wb.continueDrawing x y = wb ∧ wb.endDrawing = wb := by
  obtain ⟨hp, el, c, t, sh, cur, sel, isSel, st⟩ := wb
  dsimp only at h1 h2
  subst h1
  subst h2
  constructor
  · simp [Whiteboard.continueDrawing]
  · simp [Whiteboard.endDrawing]

/-- C6 (witness): a fresh whiteboard has no in-progress shape and selection
mode off, and both calls leave it unchanged. -/
theorem continue_end_drawing_noop_witness :
    (Whiteboard.new ⟨0, 0⟩).currentElement = none ∧
    (Whiteboard.new ⟨0, 0⟩).isSelecting = false ∧
    ((Whiteboard.new ⟨0, 0⟩).continueDrawing 1 2 = Whiteboard.new ⟨0, 0⟩ ∧
      (Whiteboard.new ⟨0, 0⟩).endDrawing = Whiteboard.new ⟨0, 0⟩) :=
  ⟨rfl, rfl, continue_end_drawing_noop _ 1 2 rfl rfl⟩

/-- C7: on a fresh board with tool FREEHAND, the sequence startDrawing(0,0),
continueDrawing(10,0), continueDrawing(10,10), endDrawing() leaves exactly
one shape: a freehand stroke with points [(0,0), (10,0), (10,10)] in order,
and no in-progress shape remains. -/
theorem freehand_draw_scenario :
    ((((((Whiteboard.new ⟨0, 0⟩).startDrawing 0 0).continueDrawing 10 0).continueDrawing 10 10).endDrawing).elements = [0]) ∧
    ((((((Whiteboard.new ⟨0, 0⟩).startDrawing 0 0).continueDrawing 10 0).continueDrawing 10 10).endDrawing).heap
      = [⟨.line [⟨0, 0⟩, ⟨10, 0⟩, ⟨10, 10⟩], "#000000", 2, false⟩]) ∧
    ((((((Whiteboard.new ⟨0, 0⟩).startDrawing 0 0).continueDrawing 10 0).continueDrawing 10 10).endDrawing).currentElement = none) :=
  ⟨rfl, rfl, rfl⟩

/-- C8: erase only filters the element collection.  The selected view, and
the shapes themselves (hence their selected flags), are untouched, and a
subsequent moveSelected produces the same heap whether or not the erase
happened, so a shape in the selected view is still translated after being
erased from the collection. -/
theorem erase_preserves_selection_view (wb : Whiteboard) (x y radius dx dy : ℚ) :
    (wb.erase x y radius).selectedElements = wb.selectedElements ∧
    (wb.erase x y radius).heap = wb.heap ∧
    ((wb.erase x y radius).moveSelected dx dy).heap = (wb.moveSelected dx dy).heap :=
  ⟨rfl, rfl, rfl⟩

/-- C9: when every pair of consecutive stroke points is distinct, the
divisor sqrt((y2-y1)^2+(x2-x1)^2) of Line::containsPoint is nonzero on
every segment, the zero-divisor guard can be dropped from the hit test, and
a stroke with fewer than two points always tests false. -/
theorem line_containsPoint_divisor_nonzero (points : List Point) (x y : ℚ)
    (h : ∀ pq ∈ points.zip points.tail, pq.1 ≠ pq.2) :
    (∀ pq ∈ points.zip points.tail,
        Real.sqrt ((Line.segDenom pq.1 pq.2 : ℚ) : ℝ) ≠ 0) ∧
    (Line.containsPoint points x y = (points.zip points.tail).any fun pq =>
        decide ((Line.segNumer pq.1 pq.2 x y) ^ 2 < 25 * Line.segDenom pq.1 pq.2)) ∧
    (points.length < 2 → Line.containsPoint points x y = false) := by
  refine ⟨?_, ?_, ?_⟩
  · intro pq hpq
    have hd := segDenom_ne_zero (h pq hpq)
    have hnn : (0 : ℚ) ≤ Line.segDenom pq.1 pq.2 :=
      add_nonneg (mul_self_nonneg _) (mul_self_nonneg _)
    have hpos : (0 : ℚ) < Line.segDenom pq.1 pq.2 := lt_of_le_of_ne hnn (Ne.symm hd)
    have hposR : (0 : ℝ) < ((Line.segDenom pq.1 pq.2 : ℚ) : ℝ) := by
      exact_mod_cast hpos
    exact ne_of_gt (Real.sqrt_pos.mpr hposR)
  · unfold Line.containsPoint
    apply any_congr_mem
    intro pq hpq
    unfold Line.segmentHit
    rw [decide_eq_true (segDenom_ne_zero (h pq hpq)), Bool.true_and]
  · intro hlen
    have hz : points.zip points.tail = [] := by
      match points with
      | [] => rfl
      | [a] => rfl
      | a :: b :: t => exact absurd hlen (by simp only [List.length_cons]; omega)
    unfold Line.containsPoint
    rw [hz]
    rfl

/-- C9 (witness): a two-point stroke with distinct consecutive points, on
which the divisor statement is instantiated at the query point (3, 4). -/
theorem line_containsPoint_divisor_nonzero_witness :
    (∀ pq ∈ (([⟨0, 0⟩, ⟨10, 0⟩] : List Point).zip ([⟨0, 0⟩, ⟨10, 0⟩] : List Point).tail),
        pq.1 ≠ pq.2) ∧
    ((∀ pq ∈ (([⟨0, 0⟩, ⟨10, 0⟩] : List Point).zip ([⟨0, 0⟩, ⟨10, 0⟩] : List Point).tail),
        Real.sqrt ((Line.segDenom pq.1 pq.2 : ℚ) : ℝ) ≠ 0) ∧
      (Line.containsPoint [⟨0, 0⟩, ⟨10, 0⟩] 3 4
        = (([⟨0, 0⟩, ⟨10, 0⟩] : List Point).zip ([⟨0, 0⟩, ⟨10, 0⟩] : List Point).tail).any fun pq =>
            decide ((Line.segNumer pq.1 pq.2 3 4) ^ 2 < 25 * Line.segDenom pq.1 pq.2)) ∧
      (([⟨0, 0⟩, ⟨10, 0⟩] : List Point).length < 2 → Line.containsPoint [⟨0, 0⟩, ⟨10, 0⟩] 3 4 = false)) :=
  ⟨by decide, line_containsPoint_divisor_nonzero [⟨0, 0⟩, ⟨10, 0⟩] 3 4 (by decide)⟩

/-- C10 (counterexample): with selection mode off and tool LINE but a stale
in-progress shape (reachable by switching tool during a freehand draw),
startDrawing pushes the stale pointer into the collection again, growing it
from one entry to two. -/
theorem startDrawing_line_stale_cex :
    ((((Whiteboard.new ⟨0, 0⟩).startDrawing 0 0).setShapeType .LINE).isSelecting = false) ∧
    ((((Whiteboard.new ⟨0, 0⟩).startDrawing 0 0).setShapeType .LINE).currentShape = .LINE) ∧
    ((((Whiteboard.new ⟨0, 0⟩).startDrawing 0 0).setShapeType .LINE).elements = [0]) ∧
    (((((Whiteboard.new ⟨0, 0⟩).startDrawing 0 0).setShapeType .LINE).startDrawing 1 1).elements = [0, 0]) := by
  refine ⟨rfl, rfl, rfl, rfl⟩

/-- C10 (amended): with selection mode off, tool LINE or TRIANGLE, and no
in-progress shape, startDrawing is a complete no-op, and so are any
following continueDrawing and endDrawing calls. -/
theorem startDrawing_line_triangle_noop (wb : Whiteboard) (x y : ℚ)
    (h1 : wb.isSelecting = false) (h2 : wb.currentElement = none)
    (h3 : wb.currentShape = ShapeType.LINE ∨ wb.currentShape = ShapeType.TRIANGLE) :
    wb.startDrawing x y = wb ∧
    (∀ x2 y2 : ℚ, wb.continueDrawing x2 y2 = wb) ∧ wb.endDrawing = wb := by
  obtain ⟨hp, el, c, t, sh, cur, sel, isSel, st⟩ := wb
  dsimp only at h1 h2 h3
  subst h1
  subst h2
  refine ⟨?_, ?_, ?_⟩
  · rcases h3 with h3 | h3 <;> subst h3 <;> simp [Whiteboard.startDrawing]
  · intro x2 y2
    simp [Whiteboard.continueDrawing]
  · simp [Whiteboard.endDrawing]

/-- C10 (witness): a fresh board switched to the LINE tool satisfies the
hypotheses, and all three calls leave it unchanged. -/
theorem startDrawing_line_triangle_noop_witness :
    ((Whiteboard.new ⟨0, 0⟩).setShapeType .LINE).isSelecting = false ∧
    ((Whiteboard.new ⟨0, 0⟩).setShapeType .LINE).currentElement = none ∧
    ((Whiteboard.new ⟨0, 0⟩).setShapeType .LINE).currentShape = ShapeType.LINE ∧
    (((Whiteboard.new ⟨0, 0⟩).setShapeType .LINE).startDrawing 3 4
        = (Whiteboard.new ⟨0, 0⟩).setShapeType .LINE ∧
      (∀ x2 y2 : ℚ, ((Whiteboard.new ⟨0, 0⟩).setShapeType .LINE).continueDrawing x2 y2
        = (Whiteboard.new ⟨0, 0⟩).setShapeType .LINE) ∧
      ((Whiteboard.new ⟨0, 0⟩).setShapeType .LINE).endDrawing
        = (Whiteboard.new ⟨0, 0⟩).setShapeType .LINE) :=
  ⟨rfl, rfl, rfl, startDrawing_line_triangle_noop _ 3 4 rfl rfl (Or.inl rfl)⟩
